import Mathlib

/-!
Shallow embedding of `src/index.tsx` of react-native-gradient-button.

The repository exports a single React component, `GradientButton`.  Its logic
surface is:
  * prop validation (`text`, `colors`) that throws on bad input;
  * in-place sanitisation of the `textStyle` prop (deleting restricted colour
    keys, with a console warning each);
  * `splitStyle`, which partitions a plain style object into an outer layout
    style and an inner mask style, warning on rejected colour keys;
  * a fixed JSX tree built from the (defaulted) props.

JavaScript objects are modelled as ordered association lists with distinct
keys (`Object.entries` order); `console.warn` and the in-place `delete`
mutation of `textStyle` are made explicit in the result record; `throw` is
an `Except.error`.  Numbers are modelled as `Rat` (the numeric values are
only ever passed through, never computed with).
-/

namespace GradientButton

/-- A style value: React Native style values in this component are strings
(colour codes, percentage sizes), numbers, or booleans; they are only carried
through, never inspected. -/
inductive SV where
  | s : String → SV
  | n : Rat → SV
  | b : Bool → SV
deriving DecidableEq, Repr

/-- A style object: an ordered association list, as produced by
`Object.entries` on a plain JS object (keys distinct, insertion order). -/
abbrev StyleObj := List (String × SV)

/-- The runtime value of a `StyleProp` argument: `undefined`, a plain style
object, an array of style objects, or a registered-stylesheet id (a number).
`typeof` on these is respectively not-object, `'object'`, `'object'` (arrays
are objects), and `'number'`. -/
inductive StyleProp where
  | undef
  | obj : StyleObj → StyleProp
  | arr : List StyleObj → StyleProp
  | reg : Nat → StyleProp
deriving DecidableEq, Repr

/-- An element of the `colors` prop array at runtime (statically typed
`string[]`, but the code validates `typeof color !== 'string'`). -/
inductive ColorElem where
  | str : String → ColorElem
  | num : Rat → ColorElem
  | bool : Bool → ColorElem
  | undef
  | null
deriving DecidableEq, Repr

/-- `typeof color === 'string'` for a colour element. -/
def ColorElem.isString : ColorElem → Bool
  | .str _ => true
  | _ => false

/-- JS truthiness of a colour element. -/
def ColorElem.truthy : ColorElem → Bool
  | .str s => s ≠ ""
  | .num q => q ≠ 0
  | .bool b => b
  | .undef => false
  | .null => false

/-- The runtime value of the `colors` prop: absent (`undefined`), `null`,
a real array, or some other non-array value. -/
inductive ColorsProp where
  | undef
  | null
  | arr : List ColorElem → ColorsProp
  | other : ColorElem → ColorsProp
deriving DecidableEq, Repr

/-- `Array.isArray(colors)`. -/
def ColorsProp.isArray : ColorsProp → Bool
  | .arr _ => true
  | _ => false

/-- JS truthiness of the `colors` prop (`!colors`); arrays are always truthy. -/
def ColorsProp.truthy : ColorsProp → Bool
  | .arr _ => true
  | .undef => false
  | .null => false
  | .other v => v.truthy

/-- The element list of `colors` (empty when it is not an array). -/
def ColorsProp.elems : ColorsProp → List ColorElem
  | .arr l => l
  | _ => []

/-- A gradient start/end/angle-centre point `{ x: number; y: number }`. -/
structure Pt where
  x : Rat
  y : Rat
deriving DecidableEq, Repr

/-- `['backgroundColor', 'borderColor', 'shadowColor', 'color']`:
style keys rejected outright by `splitStyle` (line 139). -/
def rejectedStyleKeys : List String :=
  ["backgroundColor", "borderColor", "shadowColor", "color"]

/-- The fixed layout key set routed to `outerStyle` (lines 143-160). -/
def layoutStyleKeys : List String :=
  ["width", "height", "margin", "marginTop", "marginBottom", "marginLeft",
   "marginRight", "marginHorizontal", "marginVertical", "padding",
   "paddingTop", "paddingBottom", "paddingLeft", "paddingRight",
   "paddingHorizontal", "paddingVertical"]

/-- The result of `splitStyle`: the two built-up style objects plus the
sequence of `console.warn` messages it emitted. -/
structure SplitResult where
  outerStyle : StyleObj
  innerStyle : StyleObj
  warnings : List String
deriving DecidableEq, Repr

/-- The warning emitted for a rejected style key (line 141). -/
def styleWarnMsg (k : String) : String :=
  s!"The property \"{k}\" is not allowed in the style prop."

/-- One iteration of the `Object.entries(styleObj).forEach` body
(lines 137-166): warn on a rejected key, route a layout key to `outerStyle`,
anything else to `innerStyle`; property assignment on a fresh object appends
the entry. -/
def splitStep (acc : SplitResult) (e : String × SV) : SplitResult :=
  if rejectedStyleKeys.contains e.1 then
    { acc with warnings := acc.warnings ++ [styleWarnMsg e.1] }
  else if layoutStyleKeys.contains e.1 then
    { acc with outerStyle := acc.outerStyle ++ [e] }
  else
    { acc with innerStyle := acc.innerStyle ++ [e] }

/-- `splitStyle` (lines 129-170): entries of a plain object (truthy, `typeof`
`'object'`, not an array) are classified one by one; any other value yields
two empty objects and no warning. -/
def splitStyle : StyleProp → SplitResult
  | .obj entries => entries.foldl splitStep ⟨[], [], []⟩
  | _ => ⟨[], [], []⟩

/-- `['color', 'textDecorationColor', 'textShadowColor']`: keys deleted from
`textStyle` (lines 113-118). -/
def restrictedTextProps : List String :=
  ["color", "textDecorationColor", "textShadowColor"]

/-- The `textStyle` sanitisation pass (lines 111-126): when `textStyle` is
truthy and `typeof textStyle === 'object'`, each restricted key present is
warned about and deleted in place.  On a plain object this removes those
entries; on an array value the `in` test finds no restricted key, so nothing
happens; non-objects skip the branch.  Returns the final value of the
(caller's, mutated) `textStyle` object together with the warnings.
`textWarnMsg` is the warning of line 122. -/
def textWarnMsg (k : String) : String :=
  s!"GradientButton: \"{k}\" in textStyle prop is not allowed."

def sanitizeTextStyle : StyleProp → StyleProp × List String
  | .obj ts =>
    (.obj (ts.filter (fun e => ¬ restrictedTextProps.contains e.1)),
     (restrictedTextProps.filter (fun pr => (ts.map Prod.fst).contains pr)).map
       textWarnMsg)
  | sp => (sp, [])

/-- JS `a || t` on an optional string and a string: `undefined` and the
empty string are falsy, so they fall through to `t` (line 181). -/
def strOr (a : Option String) (t : String) : String :=
  match a with
  | none => t
  | some s => if s = "" then t else s

/-- A `style` attribute in the produced tree: a single plain object
(`style={outerStyle}`), a two-element array `[base, prop]`, or the constant
`StyleSheet.absoluteFill`. -/
inductive StyleAttr where
  | one : StyleObj → StyleAttr
  | pair : StyleObj → StyleProp → StyleAttr
  | absoluteFill : StyleAttr
deriving DecidableEq, Repr

/-- The declarative view tree returned by the component.  Each constructor
records the attributes the JSX passes to the corresponding element. -/
inductive Tree where
  | view (style : StyleAttr) (pointerEventsNone : Bool) (collapsable : Option Bool)
      (children : List Tree)
  | touchable (onPress : Option String) (disabled : Bool) (activeOpacity : Rat)
      (accessibilityRole : String) (accessibilityLabel : String)
      (accessibilityHint : Option String) (restProps : StyleObj)
      (style : StyleAttr) (children : List Tree)
  | maskedView (maskElement : Tree) (style : StyleAttr) (pointerEventsNone : Bool)
      (children : List Tree)
  | linearGradient (style : StyleAttr) (pointerEventsNone : Bool)
      (colors : ColorsProp) (startPoint : Pt) (endPoint : Pt)
      (locations : Option (List Rat)) (useAngle : Bool) (angle : Rat)
      (angleCenter : Option Pt)
  | textNode (style : StyleAttr) (content : String)
  | activityIndicator (color : String) (size : String)

/-- `styles.button` (lines 228-230). -/
def styles_button : StyleObj := [("width", .s "100%")]

/-- `styles.buttonContent` (lines 231-234). -/
def styles_buttonContent : StyleObj :=
  [("width", .s "100%"), ("height", .s "100%")]

/-- `styles.maskContainer` (lines 235-240). -/
def styles_maskContainer : StyleObj :=
  [("width", .s "100%"), ("height", .s "100%"),
   ("borderRadius", .n 60), ("padding", .s "10%")]

/-- `styles.buttonText` (lines 246-249). -/
def styles_buttonText : StyleObj :=
  [("color", .s "#000000"), ("textShadowColor", .s "#000000")]

/-- The component's prop bag.  `Option` fields are `undefined` when `none`;
destructuring defaults (lines 72-91) fire exactly on `undefined`.
`touchableProps` is the `...touchableProps` rest object: by JS rest-pattern
semantics its keys exclude every explicitly destructured prop name, so the
spread on line 183 cannot override the explicit attributes. -/
structure Props where
  text : Option String
  colors : ColorsProp
  onPress : Option String
  style : StyleProp
  textStyle : StyleProp
  loading : Option Bool
  loadingColor : Option String
  loadingSize : Option String
  startPoint : Option Pt
  endPoint : Option Pt
  locations : Option (List Rat)
  useAngle : Option Bool
  angle : Option Rat
  angleCenter : Option Pt
  disabled : Option Bool
  activeOpacity : Option Rat
  accessibilityRole : Option String
  accessibilityLabel : Option String
  accessibilityHint : Option String
  touchableProps : StyleObj
deriving DecidableEq, Repr

/-- The JSX return value (lines 174-224), built from the defaulted props, the
sanitised `textStyle` and the two halves produced by `splitStyle`. -/
def buildTree (p : Props) (tsAfter : StyleProp) (outerStyle innerStyle : StyleObj) :
    Tree :=
  .view (.one outerStyle) false none
    [ .touchable p.onPress (p.disabled.getD false || p.loading.getD false)
        (p.activeOpacity.getD (7 / 10))
        (p.accessibilityRole.getD "button")
        (strOr p.accessibilityLabel (p.text.getD ""))
        p.accessibilityHint
        p.touchableProps
        (.one styles_button)
        [ .view (.one styles_buttonContent) false none
            [ .maskedView
                (.view (.pair styles_maskContainer (.obj innerStyle)) true (some false)
                  [ if p.loading.getD false then
                      .activityIndicator (p.loadingColor.getD "#FFFFFF")
                        (p.loadingSize.getD "small")
                    else
                      .textNode (.pair styles_buttonText tsAfter) (p.text.getD "") ])
                .absoluteFill true
                [ .linearGradient .absoluteFill true p.colors
                    (p.startPoint.getD ⟨0, 0⟩) (p.endPoint.getD ⟨1, 0⟩)
                    p.locations (p.useAngle.getD false) (p.angle.getD 0)
                    p.angleCenter ] ] ] ]

/-- What one render call produces: the view tree, the final value of the
caller's `textStyle` object (the `delete` on line 123 mutates it in place),
the final value of the caller's `style` object (only ever read), and the
`console.warn` messages emitted, in order. -/
structure RenderResult where
  tree : Tree
  textStyleAfter : StyleProp
  styleAfter : StyleProp
  warnings : List String

/-- The `colors.forEach` of lines 104-108: the index of the first element
failing `typeof color === 'string'`, at which the `throw` fires. -/
def firstNonString : List ColorElem → Nat → Option Nat
  | [], _ => none
  | c :: rest, i => if c.isString then firstNonString rest (i + 1) else some i

/-- The body of `GradientButton` (lines 95-224): validation throws
(`Except.error`) in source order — falsy `text` first (line 95), then a
`colors` value that is falsy, not an array, or shorter than 2 (line 99),
then the first non-string colour element (lines 104-108); otherwise the
`textStyle` sanitisation and `splitStyle` run and the JSX tree is returned. -/
def gradientButton (p : Props) : Except String RenderResult :=
  if p.text = none ∨ p.text = some "" then
    .error "GradientButton: text prop is required"
  else if ¬ p.colors.truthy ∨ ¬ p.colors.isArray ∨ p.colors.elems.length < 2 then
    .error "GradientButton: colors prop is required and must be an array of at least 2 colors"
  else
    match firstNonString p.colors.elems 0 with
    | some i =>
      .error s!"GradientButton: colors[{i}] must be a string"
    | none =>
      let st := sanitizeTextStyle p.textStyle
      let sp := splitStyle p.style
      .ok { tree := buildTree p st.1 sp.outerStyle sp.innerStyle
            textStyleAfter := st.1
            styleAfter := p.style
            warnings := st.2 ++ sp.warnings }

/-- The `TouchableOpacity` child of the root view, when the tree has the
component's fixed shape. -/
def rootTouchable : Tree → Option Tree
  | .view _ _ _ [t@(.touchable _ _ _ _ _ _ _ _ _)] => some t
  | _ => none

/-- The `disabled` attribute of a `TouchableOpacity` node. -/
def Tree.disabledAttr : Tree → Option Bool
  | .touchable _ d _ _ _ _ _ _ _ => some d
  | _ => none

/-- The `accessibilityLabel` attribute of a `TouchableOpacity` node. -/
def Tree.labelAttr : Tree → Option String
  | .touchable _ _ _ _ l _ _ _ _ => some l
  | _ => none

/-- The mask element of the `MaskedView`, reached through the fixed nesting
outer view → touchable → content view → masked view. -/
def maskElementOf : Tree → Option Tree
  | .view _ _ _
      [.touchable _ _ _ _ _ _ _ _
        [.view _ _ _ [.maskedView m _ _ _]]] => some m
  | _ => none

/-- The single content child of the mask view; `none` unless the mask view
has exactly one child. -/
def maskContent (t : Tree) : Option Tree :=
  match maskElementOf t with
  | some (.view _ _ _ [c]) => some c
  | _ => none

/-- The `LinearGradient` child of the `MaskedView`. -/
def gradientOf : Tree → Option Tree
  | .view _ _ _
      [.touchable _ _ _ _ _ _ _ _
        [.view _ _ _
          [.maskedView _ _ _ [g@(.linearGradient _ _ _ _ _ _ _ _ _)]]]] => some g
  | _ => none

/-- The list of style objects a style-prop value contributes when React
Native flattens a style array; registered style ids are opaque here. -/
def StyleProp.toObjs : StyleProp → List StyleObj
  | .undef => []
  | .obj l => [l]
  | .arr ls => ls
  | .reg _ => []

/-- React Native style flattening, as a key lookup: the last object in the
list that binds the key wins. -/
def lookupLast (objs : List StyleObj) (k : String) : Option SV :=
  objs.foldl
    (fun acc st =>
      match st.lookup k with
      | some v => some v
      | none => acc)
    none

/-- The effective (flattened) value of a key in a `style` attribute. -/
def StyleAttr.effLookup : StyleAttr → String → Option SV
  | .one l, k => l.lookup k
  | .pair base extra, k => lookupLast ([base] ++ extra.toObjs) k
  | .absoluteFill, _ => none

/-- The final value of the caller's `textStyle` object after a successful
render; `none` when validation throws first. -/
def textStyleAfterOf (p : Props) : Option StyleProp :=
  match gradientButton p with
  | .ok r => some r.textStyleAfter
  | .error _ => none

/-- A prop bag that passes validation, with a style prop exercising all
three `splitStyle` routes and a textStyle carrying a restricted key. -/
def sampleProps : Props where
  text := some "Go"
  colors := .arr [.str "#FF0000", .str "#00FF00"]
  onPress := some "onPress"
  style := .obj [("width", .s "80%"), ("borderRadius", .n 10),
                 ("backgroundColor", .s "red")]
  textStyle := .obj [("fontSize", .n 18), ("color", .s "blue")]
  loading := none
  loadingColor := none
  loadingSize := none
  startPoint := none
  endPoint := none
  locations := none
  useAngle := none
  angle := none
  angleCenter := none
  disabled := none
  activeOpacity := none
  accessibilityRole := none
  accessibilityLabel := none
  accessibilityHint := none
  touchableProps := []

/-- The render result `gradientButton` produces on `sampleProps`. -/
def sampleOk : RenderResult where
  tree := buildTree sampleProps (sanitizeTextStyle sampleProps.textStyle).1
    (splitStyle sampleProps.style).outerStyle (splitStyle sampleProps.style).innerStyle
  textStyleAfter := (sanitizeTextStyle sampleProps.textStyle).1
  styleAfter := sampleProps.style
  warnings := (sanitizeTextStyle sampleProps.textStyle).2 ++
    (splitStyle sampleProps.style).warnings

/-- `sampleProps` with `loading` set, for the loading branch. -/
def loadingProps : Props := { sampleProps with loading := some true }

/-- The render result on `loadingProps`. -/
def loadingOk : RenderResult where
  tree := buildTree loadingProps (sanitizeTextStyle loadingProps.textStyle).1
    (splitStyle loadingProps.style).outerStyle (splitStyle loadingProps.style).innerStyle
  textStyleAfter := (sanitizeTextStyle loadingProps.textStyle).1
  styleAfter := loadingProps.style
  warnings := (sanitizeTextStyle loadingProps.textStyle).2 ++
    (splitStyle loadingProps.style).warnings

/-! ## Lemmas about `splitStyle` -/

theorem foldl_splitStep_acc (l : List (String × SV)) (acc : SplitResult) :
    l.foldl splitStep acc =
      ⟨acc.outerStyle ++ (l.foldl splitStep ⟨[], [], []⟩).outerStyle,
       acc.innerStyle ++ (l.foldl splitStep ⟨[], [], []⟩).innerStyle,
       acc.warnings ++ (l.foldl splitStep ⟨[], [], []⟩).warnings⟩ := by
  induction l generalizing acc with
  | nil => simp
  | cons e rest ih =>
    simp only [List.foldl_cons]
    rw [ih (splitStep acc e), ih (splitStep ⟨[], [], []⟩ e)]
    by_cases h1 : e.1 ∈ rejectedStyleKeys
    · simp [splitStep, h1]
    · by_cases h2 : e.1 ∈ layoutStyleKeys <;> simp [splitStep, h1, h2]

/-- `splitStyle` on a plain object is entrywise filtering: layout keys to
`outerStyle`, other non-rejected keys to `innerStyle`, a warning per
rejected key, all in entry order. -/
theorem splitStyle_obj_eq_filter (entries : StyleObj) :
    splitStyle (.obj entries) =
      ⟨entries.filter
         (fun e => !rejectedStyleKeys.contains e.1 && layoutStyleKeys.contains e.1),
       entries.filter
         (fun e => !rejectedStyleKeys.contains e.1 && !layoutStyleKeys.contains e.1),
       (entries.filter (fun e => rejectedStyleKeys.contains e.1)).map
         (fun e => styleWarnMsg e.1)⟩ := by
  induction entries with
  | nil => rfl
  | cons e rest ih =>
    show (e :: rest).foldl splitStep ⟨[], [], []⟩ = _
    simp only [List.foldl_cons]
    rw [foldl_splitStep_acc rest (splitStep ⟨[], [], []⟩ e)]
    have hrest : rest.foldl splitStep ⟨[], [], []⟩ = splitStyle (.obj rest) := rfl
    rw [hrest, ih]
    by_cases h1 : e.1 ∈ rejectedStyleKeys
    · simp [splitStep, h1]
    · by_cases h2 : e.1 ∈ layoutStyleKeys <;> simp [splitStep, h1, h2]

/-- First-match association lookup distributes over append. -/
theorem lookup_append (l1 l2 : StyleObj) (k : String) :
    (l1 ++ l2).lookup k = ((l1.lookup k).or (l2.lookup k)) := by
  induction l1 with
  | nil => simp [List.lookup]
  | cons e rest ih =>
    obtain ⟨k1, v1⟩ := e
    by_cases hk : k = k1
    · simp [List.lookup, hk]
    · have : (k == k1) = false := by simp [hk]
      simp [List.lookup, this, ih]

/-- C1: `splitStyle` on a plain style object sends every property to exactly
one destination: rejected colour keys (`backgroundColor`, `borderColor`,
`shadowColor`, `color`) reach neither output; fixed layout keys appear only
in `outerStyle`; every other key appears only in `innerStyle`; kept entries
keep their original value and come only from the input; the two outputs have
disjoint key sets whose union is the input's key set minus the rejected
keys. -/
theorem splitStyle_partitions_plain_object (entries : StyleObj) :
    (∀ k v, (k, v) ∈ entries →
      (k ∈ rejectedStyleKeys →
        (k, v) ∉ (splitStyle (.obj entries)).outerStyle ∧
        (k, v) ∉ (splitStyle (.obj entries)).innerStyle) ∧
      (k ∉ rejectedStyleKeys → k ∈ layoutStyleKeys →
        (k, v) ∈ (splitStyle (.obj entries)).outerStyle) ∧
      (k ∉ rejectedStyleKeys → k ∉ layoutStyleKeys →
        (k, v) ∈ (splitStyle (.obj entries)).innerStyle)) ∧
    (∀ e, (e ∈ (splitStyle (.obj entries)).outerStyle ∨
           e ∈ (splitStyle (.obj entries)).innerStyle) → e ∈ entries) ∧
    (∀ k, ¬ (k ∈ (splitStyle (.obj entries)).outerStyle.map Prod.fst ∧
             k ∈ (splitStyle (.obj entries)).innerStyle.map Prod.fst)) ∧
    (∀ k, (k ∈ (splitStyle (.obj entries)).outerStyle.map Prod.fst ∨
           k ∈ (splitStyle (.obj entries)).innerStyle.map Prod.fst) ↔
          (k ∈ entries.map Prod.fst ∧ k ∉ rejectedStyleKeys)) := by
  rw [splitStyle_obj_eq_filter]
  refine ⟨?_, ?_, ?_, ?_⟩
  · intro k v hkv
    refine ⟨fun hrej => ⟨?_, ?_⟩, fun hrej hlay => ?_, fun hrej hlay => ?_⟩ <;>
      simp [List.mem_filter, hkv, *]
  · rintro e (he | he) <;> exact (List.mem_filter.mp he).1
  · rintro k ⟨ho, hi⟩
    simp only [List.mem_map, List.mem_filter] at ho hi
    obtain ⟨⟨k1, v1⟩, ⟨_, hc1⟩, rfl⟩ := ho
    obtain ⟨⟨k2, v2⟩, ⟨_, hc2⟩, hk⟩ := hi
    simp at hc1 hc2
    have hk2 : k2 = k1 := hk
    subst hk2
    exact hc2.2 hc1.2
  · intro k
    constructor
    · rintro (hk | hk) <;>
      · simp only [List.mem_map, List.mem_filter] at hk
        obtain ⟨⟨k1, v1⟩, ⟨hmem, hc⟩, rfl⟩ := hk
        simp at hc
        exact ⟨List.mem_map.mpr ⟨(k1, v1), hmem, rfl⟩, hc.1⟩
    · rintro ⟨hk, hrej⟩
      simp only [List.mem_map] at hk
      obtain ⟨⟨k1, v1⟩, hmem, rfl⟩ := hk
      by_cases hlay : k1 ∈ layoutStyleKeys
      · exact Or.inl (List.mem_map.mpr
          ⟨(k1, v1), List.mem_filter.mpr ⟨hmem, by simp [hrej, hlay]⟩, rfl⟩)
      · exact Or.inr (List.mem_map.mpr
          ⟨(k1, v1), List.mem_filter.mpr ⟨hmem, by simp [hrej, hlay]⟩, rfl⟩)

/-- C5: `splitStyle` classifies each property independently: on the merged
object of two style objects with disjoint key sets, each output is the
(order-preserving, key-wise) union of the outputs on the two objects taken
separately, both as entry lists and as key lookups. -/
theorem splitStyle_additive (e1 e2 : StyleObj)
    (hdisj : ∀ k, k ∈ e1.map Prod.fst → k ∉ e2.map Prod.fst) :
    (splitStyle (.obj (e1 ++ e2))).outerStyle =
        (splitStyle (.obj e1)).outerStyle ++ (splitStyle (.obj e2)).outerStyle ∧
    (splitStyle (.obj (e1 ++ e2))).innerStyle =
        (splitStyle (.obj e1)).innerStyle ++ (splitStyle (.obj e2)).innerStyle ∧
    (∀ k,
      (splitStyle (.obj (e1 ++ e2))).outerStyle.lookup k =
        (((splitStyle (.obj e1)).outerStyle.lookup k).or
          ((splitStyle (.obj e2)).outerStyle.lookup k)) ∧
      (splitStyle (.obj (e1 ++ e2))).innerStyle.lookup k =
        (((splitStyle (.obj e1)).innerStyle.lookup k).or
          ((splitStyle (.obj e2)).innerStyle.lookup k))) := by
  have ho : (splitStyle (.obj (e1 ++ e2))).outerStyle =
      (splitStyle (.obj e1)).outerStyle ++ (splitStyle (.obj e2)).outerStyle := by
    rw [splitStyle_obj_eq_filter, splitStyle_obj_eq_filter, splitStyle_obj_eq_filter]
    simp [List.filter_append]
  have hi : (splitStyle (.obj (e1 ++ e2))).innerStyle =
      (splitStyle (.obj e1)).innerStyle ++ (splitStyle (.obj e2)).innerStyle := by
    rw [splitStyle_obj_eq_filter, splitStyle_obj_eq_filter, splitStyle_obj_eq_filter]
    simp [List.filter_append]
  exact ⟨ho, hi, fun k => ⟨by rw [ho, lookup_append], by rw [hi, lookup_append]⟩⟩

theorem splitStyle_additive_witness :
    (∀ k, k ∈ ([("width", SV.s "50%"), ("color", SV.s "red")] : StyleObj).map Prod.fst →
      k ∉ ([("height", SV.n 40), ("fontSize", SV.n 16)] : StyleObj).map Prod.fst) ∧
    ((splitStyle (.obj ([("width", SV.s "50%"), ("color", SV.s "red")] ++
          [("height", SV.n 40), ("fontSize", SV.n 16)]))).outerStyle =
        (splitStyle (.obj [("width", SV.s "50%"), ("color", SV.s "red")])).outerStyle ++
          (splitStyle (.obj [("height", SV.n 40), ("fontSize", SV.n 16)])).outerStyle ∧
      (splitStyle (.obj ([("width", SV.s "50%"), ("color", SV.s "red")] ++
          [("height", SV.n 40), ("fontSize", SV.n 16)]))).innerStyle =
        (splitStyle (.obj [("width", SV.s "50%"), ("color", SV.s "red")])).innerStyle ++
          (splitStyle (.obj [("height", SV.n 40), ("fontSize", SV.n 16)])).innerStyle ∧
      (∀ k,
        (splitStyle (.obj ([("width", SV.s "50%"), ("color", SV.s "red")] ++
            [("height", SV.n 40), ("fontSize", SV.n 16)]))).outerStyle.lookup k =
          (((splitStyle (.obj [("width", SV.s "50%"), ("color", SV.s "red")])).outerStyle.lookup k).or
            ((splitStyle (.obj [("height", SV.n 40), ("fontSize", SV.n 16)])).outerStyle.lookup k)) ∧
        (splitStyle (.obj ([("width", SV.s "50%"), ("color", SV.s "red")] ++
            [("height", SV.n 40), ("fontSize", SV.n 16)]))).innerStyle.lookup k =
          (((splitStyle (.obj [("width", SV.s "50%"), ("color", SV.s "red")])).innerStyle.lookup k).or
            ((splitStyle (.obj [("height", SV.n 40), ("fontSize", SV.n 16)])).innerStyle.lookup k)))) := by
  have hd : ∀ k, k ∈ ([("width", SV.s "50%"), ("color", SV.s "red")] : StyleObj).map Prod.fst →
      k ∉ ([("height", SV.n 40), ("fontSize", SV.n 16)] : StyleObj).map Prod.fst := by
    intro k hk
    simp only [List.map, List.mem_cons, List.not_mem_nil, or_false] at hk
    rcases hk with rfl | rfl <;> decide
  exact ⟨hd, splitStyle_additive _ _ hd⟩

/-- C8: when the `style` prop is an array, a registered-style number, or
absent — anything but a plain object — `splitStyle` drops every entry: both
outputs are empty and no warning is emitted, even for rejected keys. -/
theorem splitStyle_non_plain_object (sp : StyleProp) (h : ∀ l, sp ≠ .obj l) :
    splitStyle sp = ⟨[], [], []⟩ := by
  cases sp with
  | obj l => exact absurd rfl (h l)
  | undef => rfl
  | arr ls => rfl
  | reg n => rfl

theorem splitStyle_non_plain_object_witness :
    (∀ l, StyleProp.arr [[("backgroundColor", SV.s "red")], [("width", SV.s "90%")]] ≠
        StyleProp.obj l) ∧
    splitStyle (StyleProp.arr [[("backgroundColor", SV.s "red")], [("width", SV.s "90%")]]) =
      ⟨[], [], []⟩ := by
  refine ⟨fun _ h => StyleProp.noConfusion h, ?_⟩
  exact splitStyle_non_plain_object _ (fun _ h => StyleProp.noConfusion h)

/-! ## Lemmas about validation -/

theorem firstNonString_eq_none (l : List ColorElem) (i : Nat) :
    firstNonString l i = none ↔ ∀ c ∈ l, c.isString = true := by
  induction l generalizing i with
  | nil => simp [firstNonString]
  | cons c rest ih =>
    by_cases hc : c.isString
    · simp [firstNonString, hc, ih (i + 1)]
    · simp [firstNonString, hc]

theorem firstNonString_bad (l : List ColorElem) (i j : Nat)
    (h : firstNonString l i = some j) : ∃ c ∈ l, c.isString = false := by
  induction l generalizing i with
  | nil => simp [firstNonString] at h
  | cons c rest ih =>
    by_cases hc : c.isString
    · rw [show firstNonString (c :: rest) i = firstNonString rest (i + 1) by
        simp [firstNonString, hc]] at h
      obtain ⟨c0, hc0, hcs⟩ := ih (i + 1) h
      exact ⟨c0, List.mem_cons_of_mem _ hc0, hcs⟩
    · exact ⟨c, List.mem_cons_self _ _, by simpa using hc⟩

/-- C2: the component throws exactly when `text` is falsy (absent or the
empty string) or `colors` is not an array of at least two elements that are
all strings; on every other prop bag validation passes and the render
returns a tree without raising. -/
theorem gradientButton_throws_iff (p : Props) :
    (∃ e, gradientButton p = .error e) ↔
      (p.text = none ∨ p.text = some "" ∨
       p.colors.isArray = false ∨ p.colors.elems.length < 2 ∨
       (∃ c ∈ p.colors.elems, c.isString = false)) := by
  unfold gradientButton
  by_cases ht : p.text = none ∨ p.text = some ""
  · rw [if_pos ht]
    exact ⟨fun _ => by tauto, fun _ => ⟨_, rfl⟩⟩
  · rw [if_neg ht]
    by_cases hc : ¬ p.colors.truthy = true ∨ ¬ p.colors.isArray = true ∨
        p.colors.elems.length < 2
    · rw [if_pos hc]
      refine ⟨fun _ => ?_, fun _ => ⟨_, rfl⟩⟩
      rcases hc with h | h | h
      · refine Or.inr (Or.inr (Or.inl ?_))
        cases hcol : p.colors <;> simp_all [ColorsProp.truthy, ColorsProp.isArray]
      · exact Or.inr (Or.inr (Or.inl (by simpa using h)))
      · exact Or.inr (Or.inr (Or.inr (Or.inl h)))
    · rw [if_neg hc]
      push_neg at ht hc
      obtain ⟨htr, hia, hlen⟩ := hc
      rcases hfind : firstNonString p.colors.elems 0 with _ | i
      · simp only [hfind]
        constructor
        · rintro ⟨e, he⟩
          exact Except.noConfusion he
        · rintro (h | h | h | h | ⟨c, hcmem, hcs⟩)
          · exact absurd h ht.1
          · exact absurd h ht.2
          · rw [hia] at h
            exact Bool.noConfusion h
          · exact absurd h (by omega)
          · have := (firstNonString_eq_none p.colors.elems 0).mp hfind c hcmem
            rw [this] at hcs
            exact Bool.noConfusion hcs
      · simp only [hfind]
        refine ⟨fun _ => ?_, fun _ => ⟨_, rfl⟩⟩
        exact Or.inr (Or.inr (Or.inr (Or.inr (firstNonString_bad _ _ _ hfind))))

/-- A successful render determines the result record completely, and
guarantees the `text` prop is a non-empty string. -/
theorem gradientButton_ok (p : Props) (r : RenderResult)
    (h : gradientButton p = .ok r) :
    r = { tree := buildTree p (sanitizeTextStyle p.textStyle).1
            (splitStyle p.style).outerStyle (splitStyle p.style).innerStyle,
          textStyleAfter := (sanitizeTextStyle p.textStyle).1,
          styleAfter := p.style,
          warnings := (sanitizeTextStyle p.textStyle).2 ++
            (splitStyle p.style).warnings } ∧
    (∃ s, p.text = some s ∧ s ≠ "") := by
  unfold gradientButton at h
  by_cases ht : p.text = none ∨ p.text = some ""
  · rw [if_pos ht] at h
    exact Except.noConfusion h
  · rw [if_neg ht] at h
    by_cases hc : ¬ p.colors.truthy = true ∨ ¬ p.colors.isArray = true ∨
        p.colors.elems.length < 2
    · rw [if_pos hc] at h
      exact Except.noConfusion h
    · rw [if_neg hc] at h
      push_neg at ht
      rcases hfind : firstNonString p.colors.elems 0 with _ | i
      · simp only [hfind] at h
        refine ⟨?_, ?_⟩
        · injection h with h'
          exact h'.symm
        · cases hpt : p.text with
          | none => exact absurd hpt ht.1
          | some s =>
            refine ⟨s, rfl, fun hs => ht.2 ?_⟩
            rw [hpt, hs]
      · simp only [hfind] at h
        exact Except.noConfusion h

/-- C7: on every prop bag that passes validation the returned tree has the
one fixed shape — outer `View` styled with `outerStyle`, containing one
`TouchableOpacity`, containing one `View`, containing one `MaskedView` whose
only child is a `LinearGradient` that receives `colors`, `start` (default
`{x: 0, y: 0}`), `end` (default `{x: 1, y: 0}`), `locations`, `useAngle`
(default `false`), `angle` (default `0`) and `angleCenter` unchanged from
the props. -/
theorem gradientButton_tree_shape (p : Props) (r : RenderResult)
    (h : gradientButton p = .ok r) :
    r.tree = Tree.view (.one (splitStyle p.style).outerStyle) false none
      [Tree.touchable p.onPress (p.disabled.getD false || p.loading.getD false)
        (p.activeOpacity.getD (7 / 10)) (p.accessibilityRole.getD "button")
        (strOr p.accessibilityLabel (p.text.getD "")) p.accessibilityHint
        p.touchableProps (.one styles_button)
        [Tree.view (.one styles_buttonContent) false none
          [Tree.maskedView
            (Tree.view (.pair styles_maskContainer (.obj (splitStyle p.style).innerStyle))
              true (some false)
              [if p.loading.getD false then
                 Tree.activityIndicator (p.loadingColor.getD "#FFFFFF")
                   (p.loadingSize.getD "small")
               else
                 Tree.textNode (.pair styles_buttonText (sanitizeTextStyle p.textStyle).1)
                   (p.text.getD "")])
            .absoluteFill true
            [Tree.linearGradient .absoluteFill true p.colors (p.startPoint.getD ⟨0, 0⟩)
              (p.endPoint.getD ⟨1, 0⟩) p.locations (p.useAngle.getD false)
              (p.angle.getD 0) p.angleCenter]]]] := by
  obtain ⟨hr, -⟩ := gradientButton_ok p r h
  rw [hr]
  rfl

theorem gradientButton_tree_shape_witness :
    gradientButton sampleProps = .ok sampleOk ∧
    sampleOk.tree = Tree.view (.one (splitStyle sampleProps.style).outerStyle) false none
      [Tree.touchable sampleProps.onPress
        (sampleProps.disabled.getD false || sampleProps.loading.getD false)
        (sampleProps.activeOpacity.getD (7 / 10))
        (sampleProps.accessibilityRole.getD "button")
        (strOr sampleProps.accessibilityLabel (sampleProps.text.getD ""))
        sampleProps.accessibilityHint
        sampleProps.touchableProps (.one styles_button)
        [Tree.view (.one styles_buttonContent) false none
          [Tree.maskedView
            (Tree.view
              (.pair styles_maskContainer (.obj (splitStyle sampleProps.style).innerStyle))
              true (some false)
              [if sampleProps.loading.getD false then
                 Tree.activityIndicator (sampleProps.loadingColor.getD "#FFFFFF")
                   (sampleProps.loadingSize.getD "small")
               else
                 Tree.textNode
                   (.pair styles_buttonText (sanitizeTextStyle sampleProps.textStyle).1)
                   (sampleProps.text.getD "")])
            .absoluteFill true
            [Tree.linearGradient .absoluteFill true sampleProps.colors
              (sampleProps.startPoint.getD ⟨0, 0⟩) (sampleProps.endPoint.getD ⟨1, 0⟩)
              sampleProps.locations (sampleProps.useAngle.getD false)
              (sampleProps.angle.getD 0) sampleProps.angleCenter]]]] :=
  ⟨rfl, gradientButton_tree_shape sampleProps sampleOk rfl⟩

/-- C6: on every prop bag that passes validation the mask element holds
exactly one content node — an `ActivityIndicator` with `loadingColor`
(default `'#FFFFFF'`) and `loadingSize` (default `'small'`) when `loading`
is true, and a `Text` showing the `text` prop when it is false; never
both. -/
theorem mask_content_exclusive (p : Props) (r : RenderResult)
    (h : gradientButton p = .ok r) :
    maskContent r.tree =
      some (if p.loading.getD false then
              Tree.activityIndicator (p.loadingColor.getD "#FFFFFF")
                (p.loadingSize.getD "small")
            else
              Tree.textNode (.pair styles_buttonText r.textStyleAfter)
                (p.text.getD "")) ∧
    (p.loading.getD false = true →
      maskContent r.tree =
        some (Tree.activityIndicator (p.loadingColor.getD "#FFFFFF")
          (p.loadingSize.getD "small"))) ∧
    (p.loading.getD false = false →
      maskContent r.tree =
        some (Tree.textNode (.pair styles_buttonText r.textStyleAfter)
          (p.text.getD ""))) := by
  obtain ⟨hr, -⟩ := gradientButton_ok p r h
  have h1 : maskContent r.tree =
      some (if p.loading.getD false then
              Tree.activityIndicator (p.loadingColor.getD "#FFFFFF")
                (p.loadingSize.getD "small")
            else
              Tree.textNode (.pair styles_buttonText r.textStyleAfter)
                (p.text.getD "")) := by
    rw [hr]
    rfl
  refine ⟨h1, fun hl => ?_, fun hl => ?_⟩ <;> rw [h1, hl] <;> simp

theorem mask_content_exclusive_witness :
    gradientButton loadingProps = .ok loadingOk ∧
    (maskContent loadingOk.tree =
      some (if loadingProps.loading.getD false then
              Tree.activityIndicator (loadingProps.loadingColor.getD "#FFFFFF")
                (loadingProps.loadingSize.getD "small")
            else
              Tree.textNode (.pair styles_buttonText loadingOk.textStyleAfter)
                (loadingProps.text.getD "")) ∧
     (loadingProps.loading.getD false = true →
       maskContent loadingOk.tree =
         some (Tree.activityIndicator (loadingProps.loadingColor.getD "#FFFFFF")
           (loadingProps.loadingSize.getD "small"))) ∧
     (loadingProps.loading.getD false = false →
       maskContent loadingOk.tree =
         some (Tree.textNode (.pair styles_buttonText loadingOk.textStyleAfter)
           (loadingProps.text.getD "")))) :=
  ⟨rfl, mask_content_exclusive loadingProps loadingOk rfl⟩

/-- C9: the `TouchableOpacity` receives `disabled = (disabled || loading)`,
so with `loading` true the button is unpressable even when the `disabled`
prop is false. -/
theorem touchable_disabled_or_loading (p : Props) (r : RenderResult)
    (h : gradientButton p = .ok r) :
    (rootTouchable r.tree).bind Tree.disabledAttr =
      some (p.disabled.getD false || p.loading.getD false) ∧
    (p.loading = some true →
      (rootTouchable r.tree).bind Tree.disabledAttr = some true) := by
  obtain ⟨hr, -⟩ := gradientButton_ok p r h
  have h1 : (rootTouchable r.tree).bind Tree.disabledAttr =
      some (p.disabled.getD false || p.loading.getD false) := by
    rw [hr]
    rfl
  refine ⟨h1, fun hl => ?_⟩
  rw [h1, hl]
  simp

theorem touchable_disabled_or_loading_witness :
    gradientButton loadingProps = .ok loadingOk ∧
    ((rootTouchable loadingOk.tree).bind Tree.disabledAttr =
      some (loadingProps.disabled.getD false || loadingProps.loading.getD false) ∧
     (loadingProps.loading = some true →
       (rootTouchable loadingOk.tree).bind Tree.disabledAttr = some true)) :=
  ⟨rfl, touchable_disabled_or_loading loadingProps loadingOk rfl⟩

/-- C10: the `accessibilityLabel` forwarded to the `TouchableOpacity` is
`accessibilityLabel || text`; when the prop is `undefined` or the empty
string the label falls back to the button's text, which is non-empty on
every validated prop bag. -/
theorem touchable_accessibility_label (p : Props) (r : RenderResult)
    (h : gradientButton p = .ok r) :
    ∃ s, p.text = some s ∧ s ≠ "" ∧
      (rootTouchable r.tree).bind Tree.labelAttr =
        some (strOr p.accessibilityLabel s) ∧
      ((p.accessibilityLabel = none ∨ p.accessibilityLabel = some "") →
        (rootTouchable r.tree).bind Tree.labelAttr = some s) := by
  obtain ⟨hr, s, hs, hne⟩ := gradientButton_ok p r h
  have hts : p.text.getD "" = s := by
    rw [hs]
    rfl
  have h1 : (rootTouchable r.tree).bind Tree.labelAttr =
      some (strOr p.accessibilityLabel (p.text.getD "")) := by
    rw [hr]
    rfl
  rw [hts] at h1
  refine ⟨s, hs, hne, h1, ?_⟩
  rintro (ha | ha) <;> rw [h1] <;> simp [strOr, ha]

theorem touchable_accessibility_label_witness :
    gradientButton sampleProps = .ok sampleOk ∧
    (∃ s, sampleProps.text = some s ∧ s ≠ "" ∧
      (rootTouchable sampleOk.tree).bind Tree.labelAttr =
        some (strOr sampleProps.accessibilityLabel s) ∧
      ((sampleProps.accessibilityLabel = none ∨
        sampleProps.accessibilityLabel = some "") →
        (rootTouchable sampleOk.tree).bind Tree.labelAttr = some s)) :=
  ⟨rfl, touchable_accessibility_label sampleProps sampleOk rfl⟩

/-- Looking up a restricted key in the sanitised textStyle entries yields
nothing: the filter removed every entry with that key. -/
theorem lookup_filter_out (ts : StyleObj) (k : String)
    (hk : k ∈ restrictedTextProps) :
    (ts.filter (fun e => ¬ restrictedTextProps.contains e.1)).lookup k = none := by
  induction ts with
  | nil => rfl
  | cons e rest ih =>
    obtain ⟨k1, v1⟩ := e
    by_cases h1 : k1 ∈ restrictedTextProps
    · rw [List.filter_cons_of_neg (by simp [h1])]
      exact ih
    · rw [List.filter_cons_of_pos (by simp [h1])]
      have hne : (k == k1) = false := by
        refine beq_eq_false_iff_ne.mpr ?_
        rintro rfl
        exact h1 hk
      simp only [List.lookup, hne]
      exact ih

/-- C3: with a plain-object `textStyle` (and `loading` false so the `Text`
renders), every restricted colour key present in `textStyle` is removed,
each with a warning; the `Text` node's style stacks the sanitised object on
`styles_buttonText`, and its effective style resolves `color` and
`textShadowColor` to `'#000000'` and `textDecorationColor` to nothing, so no
caller-supplied value for those keys survives. -/
theorem text_effective_style_protected (p : Props) (r : RenderResult) (ts : StyleObj)
    (h : gradientButton p = .ok r) (hts : p.textStyle = .obj ts)
    (hld : p.loading.getD false = false) :
    maskContent r.tree =
      some (Tree.textNode (.pair styles_buttonText r.textStyleAfter)
        (p.text.getD "")) ∧
    r.textStyleAfter =
      .obj (ts.filter (fun e => ¬ restrictedTextProps.contains e.1)) ∧
    (∀ k, k ∈ restrictedTextProps → k ∈ ts.map Prod.fst →
      textWarnMsg k ∈ r.warnings) ∧
    StyleAttr.effLookup (.pair styles_buttonText r.textStyleAfter) "color" =
      some (.s "#000000") ∧
    StyleAttr.effLookup (.pair styles_buttonText r.textStyleAfter)
      "textShadowColor" = some (.s "#000000") ∧
    StyleAttr.effLookup (.pair styles_buttonText r.textStyleAfter)
      "textDecorationColor" = none := by
  obtain ⟨hr, -⟩ := gradientButton_ok p r h
  have hafter : r.textStyleAfter =
      .obj (ts.filter (fun e => ¬ restrictedTextProps.contains e.1)) := by
    rw [hr]
    show (sanitizeTextStyle p.textStyle).1 = _
    rw [hts]
    rfl
  have hmask : maskContent r.tree =
      some (if p.loading.getD false then
              Tree.activityIndicator (p.loadingColor.getD "#FFFFFF")
                (p.loadingSize.getD "small")
            else
              Tree.textNode (.pair styles_buttonText r.textStyleAfter)
                (p.text.getD "")) := by
    rw [hr]
    rfl
  rw [hld] at hmask
  simp only [Bool.false_eq_true, if_false] at hmask
  have hw : r.warnings =
      ((restrictedTextProps.filter (fun pr => (ts.map Prod.fst).contains pr)).map
        textWarnMsg) ++ (splitStyle p.style).warnings := by
    rw [hr]
    show (sanitizeTextStyle p.textStyle).2 ++ _ = _
    rw [hts]
    rfl
  have hcl : ∀ k, k ∈ restrictedTextProps →
      (ts.filter (fun e => ¬ restrictedTextProps.contains e.1)).lookup k = none :=
    fun k hk => lookup_filter_out ts k hk
  refine ⟨hmask, hafter, ?_, ?_, ?_, ?_⟩
  · intro k hk hkm
    rw [hw]
    refine List.mem_append_left _ ?_
    exact List.mem_map_of_mem _ (List.mem_filter.mpr ⟨hk, by simpa using hkm⟩)
  · rw [hafter]
    simp only [StyleAttr.effLookup, StyleProp.toObjs, lookupLast,
      List.cons_append, List.nil_append, List.foldl_cons, List.foldl_nil]
    rw [hcl "color" (by decide)]
    rfl
  · rw [hafter]
    simp only [StyleAttr.effLookup, StyleProp.toObjs, lookupLast,
      List.cons_append, List.nil_append, List.foldl_cons, List.foldl_nil]
    rw [hcl "textShadowColor" (by decide)]
    rfl
  · rw [hafter]
    simp only [StyleAttr.effLookup, StyleProp.toObjs, lookupLast,
      List.cons_append, List.nil_append, List.foldl_cons, List.foldl_nil]
    rw [hcl "textDecorationColor" (by decide)]
    rfl

theorem text_effective_style_protected_witness :
    gradientButton sampleProps = .ok sampleOk ∧
    sampleProps.textStyle = .obj [("fontSize", .n 18), ("color", .s "blue")] ∧
    sampleProps.loading.getD false = false ∧
    (maskContent sampleOk.tree =
      some (Tree.textNode (.pair styles_buttonText sampleOk.textStyleAfter)
        (sampleProps.text.getD "")) ∧
    sampleOk.textStyleAfter =
      .obj (([("fontSize", .n 18), ("color", .s "blue")] : StyleObj).filter
        (fun e => ¬ restrictedTextProps.contains e.1)) ∧
    (∀ k, k ∈ restrictedTextProps →
      k ∈ ([("fontSize", .n 18), ("color", .s "blue")] : StyleObj).map Prod.fst →
      textWarnMsg k ∈ sampleOk.warnings) ∧
    StyleAttr.effLookup (.pair styles_buttonText sampleOk.textStyleAfter) "color" =
      some (.s "#000000") ∧
    StyleAttr.effLookup (.pair styles_buttonText sampleOk.textStyleAfter)
      "textShadowColor" = some (.s "#000000") ∧
    StyleAttr.effLookup (.pair styles_buttonText sampleOk.textStyleAfter)
      "textDecorationColor" = none) :=
  ⟨rfl, rfl, rfl,
   text_effective_style_protected sampleProps sampleOk
     [("fontSize", .n 18), ("color", .s "blue")] rfl rfl rfl⟩

/-- C4 counterexample: a render call does not leave every prop value
unchanged — with `textStyle = {fontSize: 18, color: 'blue'}` the caller's
object has lost its `color` entry after the call. -/
theorem gradientButton_mutates_textStyle :
    textStyleAfterOf sampleProps ≠ some sampleProps.textStyle := by
  decide

/-- C4 amended: the component is deterministic — the result is a function of
the prop bag alone, with no retained state — and leaves every prop except
`textStyle` unchanged (in particular `style`); `textStyle`, when a plain
object, is mutated in place by deleting exactly its restricted colour keys,
and is left unchanged precisely when it contains none of them. -/
theorem gradientButton_deterministic_mutation (p q : Props) (hpq : p = q) :
    gradientButton p = gradientButton q ∧
    (∀ r, gradientButton p = .ok r → r.styleAfter = p.style) ∧
    (∀ r ts, gradientButton p = .ok r → p.textStyle = .obj ts →
      r.textStyleAfter =
        .obj (ts.filter (fun e => ¬ restrictedTextProps.contains e.1)) ∧
      ((∀ e ∈ ts, e.1 ∉ restrictedTextProps) →
        r.textStyleAfter = p.textStyle)) := by
  subst hpq
  refine ⟨rfl, ?_, ?_⟩
  · intro r h
    obtain ⟨hr, -⟩ := gradientButton_ok p r h
    rw [hr]
  · intro r ts h hts
    obtain ⟨hr, -⟩ := gradientButton_ok p r h
    have hafter : r.textStyleAfter =
        .obj (ts.filter (fun e => ¬ restrictedTextProps.contains e.1)) := by
      rw [hr]
      show (sanitizeTextStyle p.textStyle).1 = _
      rw [hts]
      rfl
    refine ⟨hafter, fun hclean => ?_⟩
    rw [hafter, hts]
    congr 1
    refine List.filter_eq_self.mpr ?_
    intro e he
    simpa using hclean e he

theorem gradientButton_deterministic_mutation_witness :
    sampleProps = sampleProps ∧
    (gradientButton sampleProps = gradientButton sampleProps ∧
    (∀ r, gradientButton sampleProps = .ok r → r.styleAfter = sampleProps.style) ∧
    (∀ r ts, gradientButton sampleProps = .ok r → sampleProps.textStyle = .obj ts →
      r.textStyleAfter =
        .obj (ts.filter (fun e => ¬ restrictedTextProps.contains e.1)) ∧
      ((∀ e ∈ ts, e.1 ∉ restrictedTextProps) →
        r.textStyleAfter = sampleProps.textStyle))) :=
  ⟨rfl, gradientButton_deterministic_mutation sampleProps sampleProps rfl⟩

end GradientButton
